import Mathlib

/-!
Verification of `muzz.c` (muzzle-energy calculator, version 1.01).

Shallow embedding conventions:
* C `double` values are modelled as real numbers `ℝ`; decimal literals in the
  C source become the corresponding exact rationals.
* The command line is modelled after `getopt` has lexed it: a list of decoded
  option occurrences (`Opt`, in the order `getopt` yields them, the `-k`
  option carrying its argument string) together with the list of positional
  tokens.  GNU `getopt` permutes options in front of positionals, so every
  option on the command line is seen by the option loop.
* Output is modelled structurally: each `printf` of the program becomes an
  `OutLine` value recording which text is printed, and, for numeric output,
  the exact real arguments handed to `printf` together with the number of
  decimal places of the conversion specification used.
* `atof` is modelled from its C semantics (strtod-style decimal parsing,
  result `0` when no conversion can be performed); the model covers the
  decimal forms (sign, digits, fraction, exponent) and not the hexadecimal /
  infinity / nan forms, which no statement here exercises.
-/

namespace Muzz

/-! ## Decoded command-line options (the `optString "VhEHSqsimveptcCKk:"`) -/

/-- One decoded option occurrence, as produced by `getopt`.  `ok` is the
`-k NUM` option together with its argument text. -/
inductive Opt where
  | oV | oh | oE | oH
  | oS | oq
  | os | oi
  | om | ov | oe
  | op | ot
  | oc | oC | oK
  | ok (arg : String)
deriving DecidableEq, Repr

/-- `enum ParametersGiven`: which quantity the program solves for. -/
inductive Param where
  | mass | velocity | energy
deriving DecidableEq, Repr

/-- The `options` array of `main`, one field per `enum OptionsEnum` slot.
Each field is the C `int` stored in the array. -/
structure Options where
  verbose : Int
  si : Int
  precise : Int
  tkof : Int
  optK : Int
deriving DecidableEq, Repr

/-- Initial options: everything `-1`, then `options[OPT_VERBOSE] = 1`. -/
def initOptions : Options := ⟨1, -1, -1, -1, -1⟩

/-- State threaded through the option loop: the options array, the global
`K` as last assigned by `-k` (a global `double`, zero-initialised; stored
here as the exact rational the argument parses to), and `valueWanted`. -/
structure PState where
  o : Options
  kGlob : ℚ
  vw : Param
deriving DecidableEq, Repr

/-- State at the top of `main`: default options, global `K = 0`,
`valueWanted = PARAM_ENERGY`. -/
def initState : PState := ⟨initOptions, 0, .energy⟩

/-! ## The `atof` model -/

/-- C `isspace` on the characters `strtod` skips. -/
def isSpaceC (c : Char) : Bool :=
  c.toNat = 32 ∨ (9 ≤ c.toNat ∧ c.toNat ≤ 13)

/-- ASCII decimal digit test. -/
def isDigitC (c : Char) : Bool :=
  48 ≤ c.toNat ∧ c.toNat ≤ 57

/-- Accumulate a digit string into a natural number. -/
def digitsToNat (ds : List Char) : ℕ :=
  ds.foldl (fun a c => 10 * a + (c.toNat - 48)) 0

/-- Split an optional leading sign, returning `true` for a minus sign. -/
def signSplit (cs : List Char) : Bool × List Char :=
  match cs with
  | '-' :: rest => (true, rest)
  | '+' :: rest => (false, rest)
  | _ => (false, cs)

/-- Parse an exponent part (the characters after `e`/`E`).  When no digits
follow, `strtod` does not consume the `e` and the exponent is `0`. -/
def expPart (cs : List Char) : ℤ :=
  let sr := signSplit cs
  let ds := sr.2.takeWhile isDigitC
  if ds.isEmpty then 0
  else if sr.1 then -(digitsToNat ds : ℤ) else (digitsToNat ds : ℤ)

/-- The decomposition of a token into the parts `strtod` recognises:
minus sign, integer-part value, fraction-part value and digit count,
exponent, and whether any digit was found at all. -/
structure AtofParts where
  neg : Bool
  ip : ℕ
  fp : ℕ
  fl : ℕ
  ex : ℤ
  found : Bool
deriving DecidableEq, Repr

/-- Decompose a character list: skip whitespace, optional sign, integer
digits, optional `.` and fraction digits, optional exponent. -/
def atofParts (cs : List Char) : AtofParts :=
  let cs0 := cs.dropWhile isSpaceC
  let sr := signSplit cs0
  let ds1 := sr.2.takeWhile isDigitC
  let rest1 := sr.2.dropWhile isDigitC
  let ds2 :=
    match rest1 with
    | '.' :: r => r.takeWhile isDigitC
    | _ => []
  let rest2 :=
    match rest1 with
    | '.' :: r => r.dropWhile isDigitC
    | _ => rest1
  let ex :=
    match rest2 with
    | 'e' :: r => expPart r
    | 'E' :: r => expPart r
    | _ => 0
  ⟨sr.1, digitsToNat ds1, digitsToNat ds2, ds2.length, ex,
    !(ds1.isEmpty && ds2.isEmpty)⟩

/-- `atof` on the character list: the exact rational value of the parsed
decimal text; `0` when no digits occur (no conversion performed). -/
def atofChars (cs : List Char) : ℚ :=
  let p := atofParts cs
  if !p.found then 0
  else
    (if p.neg then -1 else 1) * ((p.ip : ℚ) + (p.fp : ℚ) / 10 ^ p.fl) * 10 ^ p.ex

/-- `atof` as the rational it converges to (exact value of the decimal text). -/
def atofQ (s : String) : ℚ := atofChars s.data

/-- Does the token carry any numeric text where `atof` looks for it?
`false` exactly when `atof` performs no conversion and returns `0`. -/
def hasDigits (s : String) : Bool := (atofParts s.data).found

/-! ## Option loop -/

/-- The informational options that short-circuit the option loop. -/
def isInfo : Opt → Bool
  | .oV | .oh | .oE | .oH => true
  | _ => false

/-- Effect of one non-informational option on the loop state (the `switch`
in the `getopt` loop of `main`). -/
def applyOpt (s : PState) : Opt → PState
  | .oS => { s with o := { s.o with verbose := -1 } }
  | .oq => { s with o := { s.o with verbose := -1 } }
  | .os => { s with o := { s.o with si := 1 } }
  | .oi => { s with o := { s.o with si := -1 } }
  | .om => { s with vw := .mass }
  | .ov => { s with vw := .velocity }
  | .oe => { s with vw := .energy }
  | .oc => { s with o := { s.o with optK := 1 } }
  | .oC => { s with o := { s.o with optK := 2 } }
  | .ok a => { s with o := { s.o with optK := 0 }, kGlob := atofQ a }
  | .oK => { s with o := { s.o with optK := -1 } }
  | .op => { s with o := { s.o with precise := 1 } }
  | .ot => { s with o := { s.o with tkof := 1 } }
  | _ => s

/-- Total fold of the option effects (used to describe the loop result when
no informational option occurs). -/
def foldOpts (opts : List Opt) (s : PState) : PState :=
  opts.foldl applyOpt s

/-! ## Output model -/

/-- One line (one `printf` group) of program output.  Numeric constructors
record the exact real arguments passed to `printf` and the decimal-place
counts of the conversion specifications used for them:
* `num d x` is the terse `printf("%.0lf\n" / "%.02lf\n", x)` line;
* `std` is the verbose standard-formula line
  `"... gr @ ... ft/s = ... lbf"` (or its `g` / `m/s` / `J` metric form,
  distinguished by the `si` field), with per-field decimal counts;
* `tk` is the verbose Taylor-knockout line, whose score is always printed
  with 2 decimals and whose diameter field is never rounded by the code.
The text-only constructors stand for the fixed texts of the program:
`errTkofNeedsThree` is the message naming the Mass, Velocity and Diameter
parameters; `errHint` is the "To view help, run with -h argument." line. -/
inductive OutLine where
  | usage
  | errTooFew
  | errParamsRequired
  | errNeedMoreThanOne
  | errTkofNeedsThree
  | errHint
  | helpBody
  | extraHelpBody
  | examplesBody
  | versionBody
  | num (decimals : ℕ) (x : ℝ)
  | std (mDec : ℕ) (mass : ℝ) (vDec : ℕ) (vel : ℝ) (eDec : ℕ) (energy : ℝ) (si : Bool)
  | tk (mDec : ℕ) (mass : ℝ) (vDec : ℕ) (vel : ℝ) (dDec : ℕ) (diam : ℝ) (ko : ℝ) (si : Bool)

/-- A whole process run: exit status, standard output, standard error. -/
structure Outcome where
  exitCode : ℕ
  stdout : List OutLine
  stderr : List OutLine

/-- What each informational option prints (`print_help` first reprints the
usage line on stdout, the others print only their own text). -/
def infoLines : Opt → List OutLine
  | .oh => [.usage, .helpBody]
  | .oV => [.versionBody]
  | .oH => [.extraHelpBody]
  | .oE => [.examplesBody]
  | _ => []

/-- The `getopt` loop of `main`: process options in order; an informational
option prints its text and returns from `main` (status 0) at once. -/
def procLoop : List Opt → PState → PState ⊕ List OutLine
  | [], s => .inl s
  | f :: rest, s =>
    if isInfo f then .inr (infoLines f)
    else procLoop rest (applyOpt s f)

/-! ## Formula engine -/

/-- `GRAVITY_IMPERIAL_APPROX` (the industry figure). -/
def GRAVITY_IMPERIAL_APPROX : ℝ := 32.163

/-- `GRAVITY_IMPERIAL` (the standard figure). -/
def GRAVITY_IMPERIAL : ℝ := 32.1739

/-- `get_energy`: energy from mass and velocity.  The global `K` the C
function reads is passed explicitly as `k`. -/
noncomputable def get_energy (mass velocity : ℝ) (si : Int) (k : ℝ) : ℝ :=
  if si = 1 then ((mass / 2) * (velocity * velocity)) / k
  else (mass * (velocity * velocity)) / k

/-- `get_mass`: mass from velocity and energy. -/
noncomputable def get_mass (velocity energy : ℝ) (si : Int) (k : ℝ) : ℝ :=
  if si = 1 then ((energy * 2) / (velocity * velocity)) * k
  else (energy / (velocity * velocity)) * k

/-- `get_velocity`: velocity from mass and energy (non-negative root). -/
noncomputable def get_velocity (mass energy : ℝ) (si : Int) (k : ℝ) : ℝ :=
  if si = 1 then Real.sqrt (((energy * 2) / mass) * k)
  else Real.sqrt ((energy / mass) * k)

/-- The constant-resolution block at the top of `result()`: the `switch` on
`options[OPT_K]` (no case for `0`, so a custom constant leaves the global
`K` — here `kGlob`, as set by `-k` — untouched), then the metric override
`if (options[OPT_SI] == 1 && options[OPT_K] != 0) K = 1000`. -/
def resolveK (optK si : Int) (kGlob : ℚ) : ℝ :=
  let k : ℝ :=
    if optK = -1 then 450240
    else if optK = 1 then 2 * GRAVITY_IMPERIAL_APPROX * 7000
    else if optK = 2 then 2 * GRAVITY_IMPERIAL * 7000
    else (kGlob : ℝ)
  if si = 1 ∧ optK ≠ 0 then 1000 else k

/-! ## Presenter -/

/-- C `round`: nearest integer, halfway cases away from zero (the value is
returned as a `double`, hence `ℝ` here). -/
noncomputable def cround (x : ℝ) : ℝ :=
  if x < 0 then -((⌊-x + 1 / 2⌋ : ℤ) : ℝ) else ((⌊x + 1 / 2⌋ : ℤ) : ℝ)

/-- Modelled from libc: the integer a `%.0lf` conversion displays, namely
the integer nearest its argument (no statement below evaluates it at a
decimal tie, so the tie-breaking convention is immaterial). -/
noncomputable def printf0 (x : ℝ) : ℤ := ⌊x + 1 / 2⌋

/-- `verbose_result`: the verbose standard-formula line, or nothing when
verbosity is off. -/
noncomputable def verbose_result (mass velocity energy : ℝ) (o : Options) : List OutLine :=
  if o.verbose = 1 then
    if o.si = 1 then
      if o.precise = 1 then [.std 2 mass 2 velocity 2 energy true]
      else [.std 2 mass 2 velocity 0 (cround energy) true]
    else
      if o.precise = 1 then [.std 2 mass 2 velocity 2 energy false]
      else [.std 0 (cround mass) 0 (cround velocity) 0 (cround energy) false]
  else []

/-- The value `result()` computes for the wanted parameter, after resolving
the constant once (the `switch (param)` of `result`). -/
noncomputable def resultValue (mass velocity energy : ℝ) (param : Param) (o : Options)
    (kGlob : ℚ) : ℝ :=
  let k := resolveK o.optK o.si kGlob
  match param with
  | .energy => get_energy mass velocity o.si k
  | .mass => get_mass velocity energy o.si k
  | .velocity => get_velocity mass energy o.si k

/-- `result()`: resolve the constant, compute the wanted value, print the
verbose line, then the terse line when verbosity is off (0 decimals in
rounded mode, 2 in precise mode). -/
noncomputable def resultLines (mass velocity energy : ℝ) (param : Param) (o : Options)
    (kGlob : ℚ) : List OutLine :=
  let r := resultValue mass velocity energy param o kGlob
  (match param with
   | .energy => verbose_result mass velocity r o
   | .mass => verbose_result r velocity energy o
   | .velocity => verbose_result mass r energy o) ++
  (if o.verbose ≠ 1 then [.num (if o.precise = 1 then 2 else 0) r] else [])

/-- The Taylor knockout score of `tkof()`. -/
noncomputable def tkofValue (mass velocity diameter : ℝ) (o : Options) : ℝ :=
  if o.si = 1 then (mass * velocity * diameter) / 3500
  else (mass * velocity * diameter) / 7000

/-- `tkof()`: compute the knockout score and print it.  Terse output is
always `%.02lf`; the metric verbose line ignores the precision flag; the
imperial verbose line rounds mass and velocity in rounded mode; the
diameter and the score keep their fixed formats. -/
noncomputable def tkofLines (mass velocity diameter : ℝ) (o : Options) : List OutLine :=
  if o.si = 1 then
    let ko := (mass * velocity * diameter) / 3500
    if o.verbose = 1 then [.tk 2 mass 2 velocity 2 diameter ko true]
    else [.num 2 ko]
  else
    let ko := (mass * velocity * diameter) / 7000
    if o.verbose = 1 then
      if o.precise = 1 then [.tk 2 mass 2 velocity 3 diameter ko false]
      else [.tk 0 (cround mass) 0 (cround velocity) 3 diameter ko false]
    else [.num 2 ko]

/-! ## `main` -/

/-- `atof` as a real number, the form in which the parsed positional values
enter the formulas. -/
noncomputable def atof (s : String) : ℝ := (atofQ s : ℝ)

/-- The whole program.  `opts` is the decoded option stream, `pos` the
positional tokens; `argc < 2` is `opts = [] ∧ pos = []`, and after the
`optind` adjustment the positional count plays the role of `argc - 1`.
In the standard branch the first parse sets `mass`/`velocity` from the two
positionals and the `switch (valueWanted)` then overwrites per target, so a
stale first-parse value remains in the unused slot exactly as in the C. -/
noncomputable def runMain (opts : List Opt) (pos : List String) : Outcome :=
  if opts.isEmpty ∧ pos.isEmpty then
    ⟨1, [], [.errTooFew, .usage, .errHint]⟩
  else
    match procLoop opts initState with
    | .inr out => ⟨0, out, []⟩
    | .inl s =>
      if pos.isEmpty then
        ⟨1, [], [.errParamsRequired, .usage, .errHint]⟩
      else if pos.length = 1 then
        ⟨1, [], [.errNeedMoreThanOne, .usage, .errHint]⟩
      else if s.o.tkof = 1 ∧ pos.length ≤ 2 then
        ⟨1, [], [.errTkofNeedsThree, .usage, .errHint]⟩
      else if s.o.tkof = 1 then
        let mass := atof (pos.getD 0 "")
        let velocity := atof (pos.getD 1 "")
        let diameter := atof (pos.getD 2 "")
        ⟨0, tkofLines mass velocity diameter s.o, []⟩
      else
        let a0 := atof (pos.getD 0 "")
        let a1 := atof (pos.getD 1 "")
        let mass := a0
        let velocity := match s.vw with | .mass => a0 | _ => a1
        let energy := match s.vw with | .energy => (-1 : ℝ) | _ => a1
        if s.o.tkof = -1 then
          ⟨0, resultLines mass velocity energy s.vw s.o s.kGlob, []⟩
        else
          ⟨0, tkofLines mass velocity (-1) s.o, []⟩

/-! ## Supporting lemmas -/

theorem atofQ_230 : atofQ "230" = 230 := by
  rw [atofQ, atofChars,
    show atofParts "230".data = ⟨false, 230, 0, 0, 0, true⟩ from by decide]
  norm_num

theorem atofQ_900 : atofQ "900" = 900 := by
  rw [atofQ, atofChars,
    show atofParts "900".data = ⟨false, 900, 0, 0, 0, true⟩ from by decide]
  norm_num

theorem atofQ_p45 : atofQ ".45" = 9 / 20 := by
  rw [atofQ, atofChars,
    show atofParts ".45".data = ⟨false, 0, 45, 2, 0, true⟩ from by decide]
  norm_num

theorem atofQ_860 : atofQ "860" = 860 := by
  rw [atofQ, atofChars,
    show atofParts "860".data = ⟨false, 860, 0, 0, 0, true⟩ from by decide]
  norm_num

theorem atofQ_foo : atofQ "foo" = 0 := by
  rw [atofQ, atofChars,
    show atofParts "foo".data = ⟨false, 0, 0, 0, 0, false⟩ from by decide]
  norm_num

theorem atofQ_neg5 : atofQ "-5" = -5 := by
  rw [atofQ, atofChars,
    show atofParts "-5".data = ⟨true, 5, 0, 0, 0, true⟩ from by decide]
  norm_num

theorem atof_230 : atof "230" = 230 := by rw [atof, atofQ_230]; norm_num

theorem atof_900 : atof "900" = 900 := by rw [atof, atofQ_900]; norm_num

theorem atof_p45 : atof ".45" = 9 / 20 := by rw [atof, atofQ_p45]; norm_num

theorem atof_860 : atof "860" = 860 := by rw [atof, atofQ_860]; norm_num

theorem atof_foo : atof "foo" = 0 := by rw [atof, atofQ_foo]; norm_num

/-- When no informational option occurs, the option loop runs to the end
and is the plain fold of the option effects. -/
theorem procLoop_of_noInfo (opts : List Opt) (s : PState)
    (h : (opts.all fun f => !(isInfo f)) = true) :
    procLoop opts s = .inl (foldOpts opts s) := by
  induction opts generalizing s with
  | nil => simp [procLoop, foldOpts]
  | cons f rest ih =>
    rw [List.all_cons, Bool.and_eq_true] at h
    rw [procLoop, if_neg (by simp_all), foldOpts, List.foldl_cons]
    exact ih (applyOpt s f) h.2

/-- The first informational option short-circuits the option loop. -/
theorem procLoop_info (opts : List Opt) (s : PState) (f : Opt)
    (h : opts.find? isInfo = some f) :
    procLoop opts s = .inr (infoLines f) := by
  induction opts generalizing s with
  | nil => simp [List.find?] at h
  | cons g rest ih =>
    by_cases hg : isInfo g = true
    · rw [List.find?_cons_of_pos _ hg, Option.some_inj] at h
      rw [procLoop, if_pos hg, h]
    · rw [List.find?_cons_of_neg _ hg] at h
      rw [procLoop, if_neg hg]
      exact ih (applyOpt s g) h

/-- No option effect clears the knockout flag once set. -/
theorem applyOpt_tkof (s : PState) (f : Opt) (h : s.o.tkof = 1) :
    (applyOpt s f).o.tkof = 1 := by
  cases f <;> simp [applyOpt, h]

/-- The knockout flag survives the rest of the option fold. -/
theorem foldOpts_tkof_preserved (opts : List Opt) (s : PState) (h : s.o.tkof = 1) :
    (foldOpts opts s).o.tkof = 1 := by
  induction opts generalizing s with
  | nil => simpa [foldOpts] using h
  | cons f rest ih =>
    rw [foldOpts, List.foldl_cons]
    exact ih (applyOpt s f) (applyOpt_tkof s f h)

/-- A `-t` occurrence makes the folded options record a knockout run. -/
theorem foldOpts_tkof_of_mem (opts : List Opt) (s : PState) (h : Opt.ot ∈ opts) :
    (foldOpts opts s).o.tkof = 1 := by
  induction opts generalizing s with
  | nil => simp at h
  | cons f rest ih =>
    rw [foldOpts, List.foldl_cons]
    rcases List.mem_cons.1 h with hf | hr
    · exact foldOpts_tkof_preserved rest _ (by rw [← hf] at *; simp [applyOpt])
    · exact ih (applyOpt s f) hr

/-- `cround` on a non-negative argument is `⌊x + 1/2⌋`. -/
theorem cround_of_nonneg (x : ℝ) (h : 0 ≤ x) : cround x = ((⌊x + 1 / 2⌋ : ℤ) : ℝ) := by
  rw [cround, if_neg (not_lt.2 h)]

theorem get_energy_imp (m v k : ℝ) : get_energy m v (-1) k = m * (v * v) / k := by
  simp [get_energy]

theorem get_energy_si (m v k : ℝ) : get_energy m v 1 k = m / 2 * (v * v) / k := by
  simp [get_energy]

theorem get_mass_imp (v e k : ℝ) : get_mass v e (-1) k = e / (v * v) * k := by
  simp [get_mass]

theorem get_mass_si (v e k : ℝ) : get_mass v e 1 k = e * 2 / (v * v) * k := by
  simp [get_mass]

theorem get_velocity_imp (m e k : ℝ) : get_velocity m e (-1) k = Real.sqrt (e / m * k) := by
  simp [get_velocity]

theorem get_velocity_si (m e k : ℝ) : get_velocity m e 1 k = Real.sqrt (e * 2 / m * k) := by
  simp [get_velocity]

/-! ## Claims -/

/-- C1 (counterexample): the positional token `"foo"` is not valid numeric
text, yet the input value it produces is `0` — the `atof` failure value —
and not the sentinel `-1`; the run proceeds without error (exit code 0)
and displays mass `0`, velocity `900`, energy `0`. -/
theorem C1_counterexample :
    atof "foo" = 0 ∧ atof "foo" ≠ -1 ∧
    runMain [] ["foo", "900"] = ⟨0, [.std 0 0 0 900 0 0 false], []⟩ := by
  have hp : procLoop [] initState = Sum.inl initState := rfl
  refine ⟨atof_foo, by rw [atof_foo]; norm_num, ?_⟩
  rw [runMain, if_neg (by simp), hp]
  simp [initState, initOptions, resultLines, resultValue, verbose_result,
    get_energy, resolveK, atof_foo, atof_900]
  norm_num [cround]

/-- C1 (amended): for every positional token that is not valid numeric
text, the parser does not raise an error: the corresponding input value
becomes `0` (the value `atof` returns when it can perform no conversion)
— not the sentinel `-1`, which is only the initialisation of quantities
never assigned — and the computation proceeds to produce a non-crashing
result (exit code 0). -/
theorem C1_no_parse_error :
    (∀ s : String, hasDigits s = false → atof s = 0) ∧
    (runMain [] ["foo", "900"]).exitCode = 0 := by
  constructor
  · intro s h
    rw [hasDigits] at h
    rw [atof, atofQ, atofChars]
    simp [h]
  · have hp : procLoop [] initState = Sum.inl initState := rfl
    rw [runMain, if_neg (by simp), hp]
    simp [initState, initOptions]

/-- C1 (witness): the token `"bar"` has no numeric text and parses to `0`. -/
theorem C1_witness : hasDigits "bar" = false ∧ atof "bar" = 0 :=
  ⟨by decide, C1_no_parse_error.1 "bar" (by decide)⟩

/-- C2: constant resolution.  Under metric units the default,
approximate-gravity and standard-gravity modes all resolve `K` to `1000`;
under imperial they resolve to `450240`, `2 * 32.163 * 7000` and
`2 * 32.1739 * 7000` respectively; in custom mode `K` is the user value
verbatim, whatever the unit system. -/
theorem C2_constant_resolution (k0 : ℚ) :
    resolveK (-1) 1 k0 = 1000 ∧ resolveK 1 1 k0 = 1000 ∧ resolveK 2 1 k0 = 1000 ∧
    resolveK (-1) (-1) k0 = 450240 ∧
    resolveK 1 (-1) k0 = 2 * 32.163 * 7000 ∧
    resolveK 2 (-1) k0 = 2 * 32.1739 * 7000 ∧
    (∀ si : Int, resolveK 0 si k0 = (k0 : ℝ)) := by
  refine ⟨?_, ?_, ?_, ?_, ?_, ?_, fun si => ?_⟩ <;>
    simp [resolveK, GRAVITY_IMPERIAL_APPROX, GRAVITY_IMPERIAL]

/-- C3: for positive mass, velocity and constant, solving for mass or for
velocity from the energy produced by `get_energy` recovers the original
value exactly, under imperial (`si = -1`) and metric (`si = 1`) units. -/
theorem C3_round_trip (m v k : ℝ) (hm : 0 < m) (hv : 0 < v) (hk : 0 < k) :
    get_mass v (get_energy m v (-1) k) (-1) k = m ∧
    get_mass v (get_energy m v 1 k) 1 k = m ∧
    get_velocity m (get_energy m v (-1) k) (-1) k = v ∧
    get_velocity m (get_energy m v 1 k) 1 k = v := by
  have hm' := hm.ne'
  have hv' := hv.ne'
  have hk' := hk.ne'
  refine ⟨?_, ?_, ?_, ?_⟩
  · rw [get_energy_imp, get_mass_imp]
    field_simp
    ring
  · rw [get_energy_si, get_mass_si]
    field_simp
    ring
  · rw [get_energy_imp, get_velocity_imp,
      show m * (v * v) / k / m * k = v ^ 2 by field_simp; ring]
    exact Real.sqrt_sq hv.le
  · rw [get_energy_si, get_velocity_si,
      show m / 2 * (v * v) / k * 2 / m * k = v ^ 2 by field_simp; ring]
    exact Real.sqrt_sq hv.le

/-- C3 (witness): the round-trip theorem at mass 2, velocity 1, K = 3. -/
theorem C3_witness :
    get_mass 1 (get_energy 2 1 (-1) 3) (-1) 3 = 2 ∧
    get_mass 1 (get_energy 2 1 1 3) 1 3 = 2 ∧
    get_velocity 2 (get_energy 2 1 (-1) 3) (-1) 3 = 1 ∧
    get_velocity 2 (get_energy 2 1 1 3) 1 3 = 1 :=
  C3_round_trip 2 1 3 two_pos one_pos three_pos

/-- C4: `get_energy` is `(mass/2) * velocity^2 / K` under metric units and
`mass * velocity^2 / K` under imperial (any `si ≠ 1`); the unit system
changes the formula shape by the factor 1/2, not only the constant. -/
theorem C4_energy_formula (m v k : ℝ) :
    get_energy m v 1 k = ((m / 2) * v ^ 2) / k ∧
    (∀ si : Int, si ≠ 1 → get_energy m v si k = (m * v ^ 2) / k) ∧
    get_energy m v 1 k = get_energy m v (-1) k / 2 := by
  refine ⟨?_, fun si h => ?_, ?_⟩
  · rw [get_energy_si]
    ring
  · simp only [get_energy]
    rw [if_neg h]
    ring
  · rw [get_energy_si, get_energy_imp]
    ring

/-- C4 (witness): the imperial case of the energy formula at mass 3,
velocity 4, K = 2. -/
theorem C4_witness :
    get_energy 3 4 (-1) 2 = (3 * 4 ^ 2) / 2 :=
  (C4_energy_formula 3 4 2).2.1 (-1) (by decide)

/-- C5 (counterexample): with no arguments at all (fewer than 1 positional
argument) the program exits 1 but its message is the "Too few arguments"
text, not the "Parameters required" one the claim names. -/
theorem C5_counterexample :
    runMain [] [] = ⟨1, [], [.errTooFew, .usage, .errHint]⟩ ∧
    OutLine.errTooFew ≠ OutLine.errParamsRequired :=
  ⟨rfl, fun h => OutLine.noConfusion h⟩

/-- C5 (amended): argument-count validation.  With no tokens at all the
program fails with "Too few arguments"; with at least one option (none
informational) and zero positional values it fails with "Parameters
required"; with exactly one positional value (no informational option) it
fails with "Need more than one parameter"; in knockout mode with exactly
two positional values it fails with the message naming Mass, Velocity and
Diameter.  Each failure prints the usage line to the error stream and
exits with code 1. -/
theorem C5_argument_count :
    runMain [] [] = ⟨1, [], [.errTooFew, .usage, .errHint]⟩ ∧
    (∀ (opts : List Opt) (pos : List String), opts ≠ [] →
      (opts.all fun f => !(isInfo f)) = true → pos = [] →
      runMain opts pos = ⟨1, [], [.errParamsRequired, .usage, .errHint]⟩) ∧
    (∀ (opts : List Opt) (pos : List String),
      (opts.all fun f => !(isInfo f)) = true → pos.length = 1 →
      runMain opts pos = ⟨1, [], [.errNeedMoreThanOne, .usage, .errHint]⟩) ∧
    (∀ (opts : List Opt) (pos : List String),
      (opts.all fun f => !(isInfo f)) = true →
      (foldOpts opts initState).o.tkof = 1 → pos.length = 2 →
      runMain opts pos = ⟨1, [], [.errTkofNeedsThree, .usage, .errHint]⟩) := by
  refine ⟨rfl, fun opts pos hne hni hpos => ?_, fun opts pos hni hpos => ?_,
    fun opts pos hni ht hpos => ?_⟩
  · subst hpos
    rw [runMain, if_neg (by simp [hne]), procLoop_of_noInfo opts initState hni]
    rfl
  · have hne : ¬pos.isEmpty := by cases pos <;> simp_all
    rw [runMain, if_neg (by simp [List.isEmpty_iff] at hne ⊢; simp [hne]),
      procLoop_of_noInfo opts initState hni]
    simp [hne, hpos]
  · have hne : ¬pos.isEmpty := by cases pos <;> simp_all
    rw [runMain, if_neg (by simp [List.isEmpty_iff] at hne ⊢; simp [hne]),
      procLoop_of_noInfo opts initState hni]
    simp [hne, hpos, ht]

/-- C5 (witness): the three hypothesised failure cases at concrete inputs:
`-q` with no positionals, one bare positional, and `-t` with two. -/
theorem C5_witness :
    runMain [Opt.oq] [] = ⟨1, [], [.errParamsRequired, .usage, .errHint]⟩ ∧
    runMain [] ["5"] = ⟨1, [], [.errNeedMoreThanOne, .usage, .errHint]⟩ ∧
    runMain [Opt.ot] ["1", "2"] = ⟨1, [], [.errTkofNeedsThree, .usage, .errHint]⟩ :=
  ⟨C5_argument_count.2.1 [Opt.oq] [] (by decide) (by decide) rfl,
   C5_argument_count.2.2.1 [] ["5"] (by decide) rfl,
   C5_argument_count.2.2.2 [Opt.ot] ["1", "2"] (by decide) (by decide) rfl⟩

/-- C6: any invocation whose option stream contains an informational
option (`-h`, `-V`, `-H` or `-E`, `f` being the first such occurrence)
prints only that option's informational text, nothing on the error
stream, and exits with status 0 — whatever other options and positional
arguments are present. -/
theorem C6_info_short_circuit (opts : List Opt) (pos : List String) (f : Opt)
    (h : opts.find? isInfo = some f) :
    runMain opts pos = ⟨0, infoLines f, []⟩ := by
  have hne : opts ≠ [] := by
    intro e
    rw [e] at h
    simp [List.find?] at h
  rw [runMain, if_neg (by simp [hne]), procLoop_info opts initState f h]

/-- C6 (witness): `-s -V 230` prints the version text and exits 0. -/
theorem C6_witness :
    runMain [Opt.os, Opt.oV] ["230"] = ⟨0, infoLines Opt.oV, []⟩ :=
  C6_info_short_circuit [Opt.os, Opt.oV] ["230"] Opt.oV (by decide)

/-- C7 (counterexample): a knockout-formula invocation in terse rounded
mode (`-t -q`, no `-p`): the single output line is printed with 2 decimal
places, not the 0 decimal places the claim requires of rounded mode. -/
theorem C7_counterexample :
    (runMain [Opt.ot, Opt.oq] ["230", "860", ".45"]).stdout =
      [.num 2 ((230 * 860 * (9 / 20)) / 7000)] ∧
    OutLine.num 2 ((230 * 860 * (9 / 20)) / 7000) ≠
      OutLine.num 0 ((230 * 860 * (9 / 20)) / 7000) := by
  have hp : procLoop [Opt.ot, Opt.oq] initState =
      Sum.inl ⟨⟨-1, -1, -1, 1, -1⟩, 0, .energy⟩ := rfl
  constructor
  · simp [runMain, hp, tkofLines, atof_230, atof_860, atof_p45]
  · simp

/-- C7 (amended): in terse mode the program prints only the numeric result
on one line; for the standard formula with 0 decimal places in rounded
mode and 2 in exact mode, while the knockout formula always prints 2
decimal places; for mass 230 and velocity 900 with imperial units and
default constant K = 450240, terse rounded output is one line whose
`%.0lf` rendering is the integer 414. -/
theorem C7_terse_output :
    (∀ (m v e : ℝ) (param : Param) (o : Options) (k0 : ℚ), o.verbose ≠ 1 →
      resultLines m v e param o k0 =
        [.num (if o.precise = 1 then 2 else 0) (resultValue m v e param o k0)]) ∧
    (∀ (m v d : ℝ) (o : Options), o.verbose ≠ 1 →
      tkofLines m v d o = [.num 2 (tkofValue m v d o)]) ∧
    runMain [Opt.oq] ["230", "900"] =
      ⟨0, [.num 0 ((230 * (900 * 900)) / 450240)], []⟩ ∧
    printf0 ((230 * (900 * 900)) / 450240) = 414 := by
  have hp : procLoop [Opt.oq] initState =
      Sum.inl ⟨⟨-1, -1, -1, -1, -1⟩, 0, .energy⟩ := rfl
  refine ⟨fun m v e param o k0 h => ?_, fun m v d o h => ?_, ?_, ?_⟩
  · cases param <;> simp [resultLines, verbose_result, h]
  · by_cases hsi : o.si = 1 <;> simp [tkofLines, tkofValue, h, hsi]
  · simp [runMain, hp, resultLines, resultValue, verbose_result, get_energy,
      resolveK, atof_230, atof_900]
  · rw [printf0]
    norm_num

/-- C7 (witness): the two terse shapes at concrete inputs (terse options,
rounded mode). -/
theorem C7_witness :
    resultLines 1 2 3 .energy ⟨-1, -1, -1, -1, -1⟩ 7 =
      [.num (if (⟨-1, -1, -1, -1, -1⟩ : Options).precise = 1 then 2 else 0)
        (resultValue 1 2 3 .energy ⟨-1, -1, -1, -1, -1⟩ 7)] ∧
    tkofLines 1 2 3 ⟨-1, -1, -1, -1, -1⟩ =
      [.num 2 (tkofValue 1 2 3 ⟨-1, -1, -1, -1, -1⟩)] :=
  ⟨C7_terse_output.1 1 2 3 .energy ⟨-1, -1, -1, -1, -1⟩ 7 (by decide),
   C7_terse_output.2.1 1 2 3 ⟨-1, -1, -1, -1, -1⟩ (by decide)⟩

/-- C8: verbose standard-formula display in rounded mode: under imperial
units mass, velocity and energy are each passed through `round` (C
semantics: nearest integer, halves away from zero — witnessed here on the
half-integer 5/2 and its negation) and printed with 0 decimals; under
metric units only energy is rounded while mass and velocity keep 2
decimal places. -/
theorem C8_verbose_rounding (m v e : ℝ) (o : Options)
    (hvb : o.verbose = 1) (hp : o.precise ≠ 1) :
    (o.si = 1 → verbose_result m v e o = [.std 2 m 2 v 0 (cround e) true]) ∧
    (o.si ≠ 1 → verbose_result m v e o =
      [.std 0 (cround m) 0 (cround v) 0 (cround e) false]) ∧
    cround (5 / 2 : ℝ) = 3 ∧ cround (-(5 / 2) : ℝ) = -3 := by
  refine ⟨fun hsi => ?_, fun hsi => ?_, ?_, ?_⟩
  · rw [verbose_result, if_pos hvb, if_pos hsi, if_neg hp]
  · rw [verbose_result, if_pos hvb, if_neg hsi, if_neg hp]
  · rw [cround, if_neg (by norm_num)]
    norm_num
  · rw [cround, if_pos (by norm_num)]
    norm_num

/-- C8 (witness): the rounding shapes at mass 15, velocity 270, energy 5,
metric verbose rounded options. -/
theorem C8_witness :
    (((⟨1, 1, -1, -1, -1⟩ : Options).si = 1 →
      verbose_result 15 270 5 ⟨1, 1, -1, -1, -1⟩ = [.std 2 15 2 270 0 (cround 5) true]) ∧
    (((⟨1, 1, -1, -1, -1⟩ : Options).si ≠ 1 →
      verbose_result 15 270 5 ⟨1, 1, -1, -1, -1⟩ =
        [.std 0 (cround 15) 0 (cround 270) 0 (cround 5) false])) ∧
    cround (5 / 2 : ℝ) = 3 ∧ cround (-(5 / 2) : ℝ) = -3) :=
  C8_verbose_rounding 15 270 5 ⟨1, 1, -1, -1, -1⟩ rfl (by decide)

/-- C9 (counterexample): the invocation `-k -5 230 900` reaches the
formula computation (exit code 0), and its resolved constant is `-5`,
which is not strictly positive. -/
theorem C9_counterexample :
    resolveK 0 (-1) (atofQ "-5") = -5 ∧
    ¬(0 < resolveK 0 (-1) (atofQ "-5")) ∧
    (runMain [Opt.ok "-5"] ["230", "900"]).exitCode = 0 := by
  have hk : resolveK 0 (-1) (atofQ "-5") = -5 := by
    rw [atofQ_neg5]
    simp [resolveK]
  have hp : procLoop [Opt.ok "-5"] initState =
      Sum.inl ⟨⟨1, -1, -1, -1, 0⟩, atofQ "-5", .energy⟩ := rfl
  refine ⟨hk, by rw [hk]; norm_num, ?_⟩
  simp [runMain, hp]

/-- C9 (amended): the constant is resolved once per computation and every
formula reads that same resolved value; for the non-custom constant modes
the resolved K is strictly positive, while in custom mode K is the user
value verbatim and need not be positive. -/
theorem C9_constant_invariant :
    (∀ (si : Int) (k0 : ℚ),
      0 < resolveK (-1) si k0 ∧ 0 < resolveK 1 si k0 ∧ 0 < resolveK 2 si k0) ∧
    (∀ (m v e : ℝ) (o : Options) (k0 : ℚ),
      resultValue m v e .energy o k0 = get_energy m v o.si (resolveK o.optK o.si k0) ∧
      resultValue m v e .mass o k0 = get_mass v e o.si (resolveK o.optK o.si k0) ∧
      resultValue m v e .velocity o k0 = get_velocity m e o.si (resolveK o.optK o.si k0)) := by
  refine ⟨fun si k0 => ⟨?_, ?_, ?_⟩, fun m v e o k0 => ⟨rfl, rfl, rfl⟩⟩ <;>
    (simp only [resolveK]
     split <;> norm_num [GRAVITY_IMPERIAL_APPROX, GRAVITY_IMPERIAL])

/-- C10: when the knockout flag is set (whatever target-quantity options
occur) and at least three positional values are given, the run prints the
knockout lines computed from the first three positional values; the
target-quantity selector does not enter the output at all. -/
theorem C10_tkof_overrides (opts : List Opt) (pos : List String)
    (hni : (opts.all fun f => !(isInfo f)) = true)
    (hmem : Opt.ot ∈ opts) (hlen : 3 ≤ pos.length) :
    runMain opts pos =
      ⟨0, tkofLines (atof (pos.getD 0 "")) (atof (pos.getD 1 ""))
        (atof (pos.getD 2 "")) (foldOpts opts initState).o, []⟩ := by
  have ht := foldOpts_tkof_of_mem opts initState hmem
  have hne : ¬pos.isEmpty := by
    cases pos
    · simp at hlen
    · simp
  rw [runMain, if_neg (by simp [List.isEmpty_iff] at hne ⊢; simp [hne]),
    procLoop_of_noInfo opts initState hni]
  have h1 : ¬pos.length = 1 := by omega
  have h2 : ¬pos.length ≤ 2 := by omega
  simp [hne, h1, h2, ht]

/-- C10 (witness): `-t -m 230 860 .45` runs the knockout formula on the
three positionals, ignoring the mass selector. -/
theorem C10_witness :
    runMain [Opt.ot, Opt.om] ["230", "860", ".45"] =
      ⟨0, tkofLines (atof (["230", "860", ".45"].getD 0 ""))
        (atof (["230", "860", ".45"].getD 1 ""))
        (atof (["230", "860", ".45"].getD 2 ""))
        (foldOpts [Opt.ot, Opt.om] initState).o, []⟩ :=
  C10_tkof_overrides [Opt.ot, Opt.om] ["230", "860", ".45"]
    (by decide) (by decide) (by decide)

end Muzz
